import Mathlib

/-!
Shallow embedding of the core of `pvw` (`main.go`): the lsof parsing-and-filtering
engine (`parseLsof`, `getCwd`), the row formatter (`formatLsof`), the collection
pipeline (`checkProcesses`) and the terminate branch of `model.Update`.

Go strings are modelled as `List Char` (the inputs are ASCII).  Fallible Go
operations (slice indexing, string slicing, `strconv.Atoi`, external command
errors) are modelled in `Except GoErr`; a Go runtime panic (index/slice out of
range) is `GoErr.panic`.
-/

set_option autoImplicit false

namespace Pvw

/-- Go strings, modelled as lists of characters. -/
abbrev Str : Type := List Char

/-- Shorthand to turn a Lean string literal into a `Str`. -/
def str (s : String) : Str := s.data

/-- Failure modes of the embedded Go code. -/
inductive GoErr : Type where
  /-- A Go runtime panic (slice or index out of range). -/
  | panic : GoErr
  /-- The error returned by `strconv.Atoi` on a malformed integer. -/
  | atoiError : Str → GoErr
  /-- An error value propagated out of the `getCwd` command invocation. -/
  | cwdError : Str → GoErr
  deriving DecidableEq

/-- Go slice/string indexing `xs[i]`: panics when `i` is out of range. -/
def goIdx {α : Type} (xs : List α) (i : Nat) : Except GoErr α :=
  match xs.get? i with
  | some x => Except.ok x
  | none => Except.error GoErr.panic

/-- Go string slicing `s[i:]`: panics when `i > len(s)`. -/
def goSliceFrom (s : Str) (i : Nat) : Except GoErr Str :=
  if i ≤ s.length then Except.ok (s.drop i) else Except.error GoErr.panic

/-- Go string slicing `s[a:b]`: panics unless `a ≤ b ≤ len(s)`. -/
def goSlice (s : Str) (a b : Nat) : Except GoErr Str :=
  if a ≤ b ∧ b ≤ s.length then Except.ok ((s.drop a).take (b - a)) else Except.error GoErr.panic

/-- `strings.Contains s sep`: whether `sep` occurs as a contiguous substring of `s`. -/
def containsSub (sep : Str) : Str → Bool
  | [] => sep.isEmpty
  | c :: rest => sep.isPrefixOf (c :: rest) || containsSub sep rest

/-- Worker for `splitGo`, structurally recursive on a fuel argument.  Each step
either consumes one leading character into the accumulator, or consumes a
leading occurrence of `sep` (at least one character, `sep` being nonempty) and
emits the accumulated token, so fuel `s.length` always suffices. -/
def splitAux (sep : Str) : Nat → Str → Str → List Str
  | _, [], acc => [acc]
  | 0, s, acc => [acc ++ s]
  | Nat.succ fuel, c :: rest, acc =>
    if sep.isPrefixOf (c :: rest) then
      acc :: splitAux sep fuel ((c :: rest).drop sep.length) []
    else
      splitAux sep fuel rest (acc ++ [c])

/-- `strings.Split s sep` for a nonempty separator: splits `s` around each
leftmost non-overlapping occurrence of `sep`.  Always returns at least one
element; `splitGo [] sep = [[]]`.  (`main.go` never splits on an empty
separator, so that Go special case is mapped to the identity split.) -/
def splitGo (s sep : Str) : List Str :=
  if sep.isEmpty then [s] else splitAux sep s.length s []

/-- Accumulate decimal digits, as `strconv.Atoi` does; `none` on a non-digit. -/
def digitsVal : Str → Nat → Option Nat
  | [], acc => some acc
  | c :: rest, acc =>
    if c.isDigit then digitsVal rest (acc * 10 + (c.toNat - '0'.toNat)) else none

/-- Largest value of Go's 64-bit `int`. -/
def int64Max : Nat := 9223372036854775807

/-- Digits-only part of `strconv.Atoi` for a non-negative number: errors on an
empty digit string, a non-digit, or a value out of `int` range. -/
def atoiNat (neg : Bool) (ds : Str) : Option Int :=
  match ds with
  | [] => none
  | _ =>
    match digitsVal ds 0 with
    | none => none
    | some n =>
      if neg then
        if n ≤ int64Max + 1 then some (-(Int.ofNat n)) else none
      else
        if n ≤ int64Max then some (Int.ofNat n) else none

/-- `strconv.Atoi`: optional sign followed by decimal digits. -/
def atoi? (s : Str) : Option Int :=
  match s with
  | '+' :: rest => atoiNat false rest
  | '-' :: rest => atoiNat true rest
  | _ => atoiNat false s

/-- `strconv.Itoa` for Go `int`. -/
def itoa (i : Int) : Str :=
  if i < 0 then '-' :: Nat.toDigits 10 i.natAbs else Nat.toDigits 10 i.toNat

/-- `strings.ToTitle` restricted to the ASCII statuses `lsof` emits: maps each
letter to upper case. -/
def toTitleAscii (s : Str) : Str := s.map Char.toUpper

/-- The process-record separator `"\np"`. -/
def sepNP : Str := str "\np"

/-- The connection-record separator `"\nf"`. -/
def sepNF : Str := str "\nf"

/-- A newline, `"\n"`. -/
def nlStr : Str := str "\n"

/-- The local-to-remote arrow token `"->"`. -/
def arrowTok : Str := str "->"

/-- The address:port delimiter `":"`. -/
def colonTok : Str := str ":"

/-- The invalid-connection sentinel `"*:*"`. -/
def starStar : Str := str "*:*"

/-- The working-directory marker `"fcwd\nn"` searched for by `getCwd`. -/
def cwdMarker : Str := str "fcwd\nn"

/-- The `connection` struct of `main.go` (fields in source order). -/
structure connection : Type where
  protocol : Str
  status : Str
  remotePort : Str
  remoteAddress : Str
  localPort : Str
  localAddress : Str
  deriving DecidableEq

/-- The zero value of `connection`: all fields empty strings. -/
def connZero : connection := ⟨[], [], [], [], [], []⟩

/-- The `process` struct of `main.go` (fields in source order). -/
structure process : Type where
  id : Int
  name : Str
  directory : Str
  connections : List connection
  username : Str
  deriving DecidableEq

/-- A `table.Column`: only its title is inspected by `formatLsof`. -/
structure column : Type where
  title : Str
  width : Nat
  deriving DecidableEq

/-- A `table.Row` (`[]string`). -/
abbrev Row : Type := List Str

/-- The `settings` struct of `main.go`. -/
structure settings : Type where
  readOnly : Bool
  showClosed : Bool
  listenOnly : Bool
  getCwd : Bool
  columns : List column
  portFilter : List Str
  nameFilter : List Str
  deriving DecidableEq

/-- `getCwd` (`main.go:240-264`) after the external command has produced its
outcome `cmdOut` (the raw output of `lsof -p PID -F n`, or the command's error
string): splits on the marker `"fcwd\nn"` and takes everything up to the next
newline after it.  The `length < 1` guard is translated verbatim from the
source; `cwdSplit[1]` is Go slice indexing and panics when out of range. -/
def getCwd (cmdOut : Except Str Str) : Except GoErr Str :=
  match cmdOut with
  | Except.error e => Except.error (GoErr.cwdError e)
  | Except.ok out =>
    let cwdSplit := splitGo out cwdMarker
    if cwdSplit.length < 1 then Except.ok []
    else do
      let second ← goIdx cwdSplit 1
      goIdx (splitGo second nlStr) 0

/-- The port-filter check of `parseLsof` (`main.go:381-391`): with a non-empty
`portFilter`, the connection is invalidated unless the filter contains its
local or remote port. -/
def portCheck (options : settings) (conn : connection) (valid : Bool) : Bool :=
  if options.portFilter.length > 0 then
    if ¬ (options.portFilter.contains conn.localPort || options.portFilter.contains conn.remotePort) then
      false
    else valid
  else valid

/-- One iteration of the field-line loop of `parseLsof` (`main.go:335-419`):
dispatch on the leading tag character of `line`, updating the connection under
construction and its validity flag.  Empty lines and unrecognized tags are
skipped.  `line[0:4]` in the `T` case is Go string slicing and panics on a
`T`-line shorter than four characters. -/
def connLine (options : settings) (conn : connection) (valid : Bool) (line : Str) : Except GoErr (connection × Bool) :=
  match line with
  | [] => Except.ok (conn, valid)
  | c :: restLine =>
    if c = 'P' then
      Except.ok ({ conn with protocol := restLine }, valid)
    else if c = 'n' then
      if restLine = starStar then
        Except.ok (conn, false)
      else
        let splitLR := splitGo restLine arrowTok
        if splitLR.length > 1 then do
          let sideL ← goIdx splitLR 0
          let sideR ← goIdx splitLR 1
          let la ← goIdx (splitGo sideL colonTok) 0
          let lp ← goIdx (splitGo sideL colonTok) 1
          let ra ← goIdx (splitGo sideR colonTok) 0
          let rp ← goIdx (splitGo sideR colonTok) 1
          let conn' := { conn with localAddress := la, localPort := lp,
                                   remoteAddress := ra, remotePort := rp }
          Except.ok (conn', portCheck options conn' valid)
        else do
          let side ← goIdx splitLR 0
          let la ← goIdx (splitGo side colonTok) 0
          let lp ← goIdx (splitGo side colonTok) 1
          let conn' := { conn with localAddress := la, localPort := lp }
          Except.ok (conn', portCheck options conn' valid)
    else if c = 'T' then do
      let head4 ← goSlice line 0 4
      if head4 = str "TST=" then
        let stat := line.drop 4
        let conn' := { conn with status := stat }
        let valid1 := if stat = str "CLOSED" ∧ options.showClosed = true then false else valid
        let valid2 := if options.listenOnly = true ∧ ¬ stat = str "LISTEN" then false else valid1
        Except.ok (conn', valid2)
      else
        Except.ok (conn, valid)
    else
      Except.ok (conn, valid)

/-- Fold `connLine` over the field lines of one connection segment. -/
def parseConnSegAux (options : settings) : List Str → connection → Bool → Except GoErr (connection × Bool)
  | [], conn, valid => Except.ok (conn, valid)
  | line :: rest, conn, valid => do
    let r ← connLine options conn valid line
    parseConnSegAux options rest r.1 r.2

/-- Parse one connection segment (`main.go:322-425`): split it into field lines
on newlines and fold the tag dispatch starting from the zero-valued connection
with `valid := true`. -/
def parseConnSeg (options : settings) (seg : Str) : Except GoErr (connection × Bool) :=
  parseConnSegAux options (splitGo seg nlStr) connZero true

/-- Parse a list of connection segments, keeping (in order) the connections
still marked valid (`main.go:422-424`). -/
def parseConnections (options : settings) : List Str → Except GoErr (List connection)
  | [] => Except.ok []
  | seg :: rest => do
    let r ← parseConnSeg options seg
    let restC ← parseConnections options rest
    Except.ok (if r.2 then r.1 :: restC else restC)

/-- The index-zero special case of `parseLsof` (`main.go:291-294`): the very
first block keeps its leading `p`, so the first character of its first line is
stripped (panicking, like Go, when that line is empty). -/
def stripFirstChar (processIndex : Nat) (processInfoRaw : List Str) : Except GoErr (List Str) :=
  if processIndex = 0 then do
    let first ← goIdx processInfoRaw 0
    let stripped ← goSliceFrom first 1
    Except.ok (processInfoRaw.set 0 stripped)
  else
    Except.ok processInfoRaw

/-- The PID parse of `parseLsof` (`main.go:295-298`): a failed `strconv.Atoi`
aborts the whole parse. -/
def readPid (pidStr : Str) : Except GoErr Int :=
  match atoi? pidStr with
  | some v => Except.ok v
  | none => Except.error (GoErr.atoiError pidStr)

/-- The working-directory resolution of `parseLsof` (`main.go:300-308`): call
`getCwd` only when enabled, propagating its failure. -/
def resolveCwd (options : settings) (cwdOut : Int → Except Str Str) (pid : Int) :
    Except GoErr Str :=
  if options.getCwd then getCwd (cwdOut pid) else Except.ok []

/-- The name-filter gate plus connection parsing and process emission of
`parseLsof` (`main.go:314-442`): when the name filter passes, read the user
line, parse the connection segments, and emit the process only if a valid
connection remains. -/
def emitProcess (options : settings) (processInfo : List Str) (segs : List Str)
    (pid : Int) (cmd finalCwd : Str) : Except GoErr (Option process) :=
  if ¬ (options.nameFilter.length > 0) ∨ options.nameFilter.contains cmd then do
    let line2 ← goIdx processInfo 2
    let user ← goSliceFrom line2 1
    let allConnections ← parseConnections options segs
    if allConnections.length > 0 then
      Except.ok (some { id := pid, name := cmd, username := user,
                        directory := finalCwd, connections := allConnections })
    else
      Except.ok none
  else
    Except.ok none

/-- Parse one process block (`main.go:276-443`).  `cwdOut pid` is the outcome
of the external `lsof -p pid -F n` invocation consumed by `getCwd` when
working-directory resolution is enabled.  Returns `none` when the block is
skipped by the name filter or has no valid connection left. -/
def parseProcessBlock (options : settings) (cwdOut : Int → Except Str Str)
    (processIndex : Nat) (processString : Str) : Except GoErr (Option process) := do
  let connectionSplit := splitGo processString sepNF
  let head ← goIdx connectionSplit 0
  let processInfo ← stripFirstChar processIndex (splitGo head nlStr)
  let pidStr ← goIdx processInfo 0
  let pid ← readPid pidStr
  let finalCwd ← resolveCwd options cwdOut pid
  let line1 ← goIdx processInfo 1
  let cmd ← goSliceFrom line1 1
  emitProcess options processInfo (connectionSplit.drop 1) pid cmd finalCwd

/-- Loop of `parseLsof` over the process blocks, carrying the block index
(only its being zero matters) and stopping at the first error. -/
def parseLsofAux (options : settings) (cwdOut : Int → Except Str Str) :
    Nat → List Str → Except GoErr (List process)
  | _, [] => Except.ok []
  | idx, ps :: rest => do
    let p? ← parseProcessBlock options cwdOut idx ps
    let restP ← parseLsofAux options cwdOut (idx + 1) rest
    match p? with
    | some p => Except.ok (p :: restP)
    | none => Except.ok restP

/-- `parseLsof` (`main.go:268-447`): split the raw text into process blocks on
`"\np"` and parse each block. -/
def parseLsof (raw : Str) (options : settings) (cwdOut : Int → Except Str Str) :
    Except GoErr (List process) :=
  parseLsofAux options cwdOut 0 (splitGo raw sepNP)

/-- Column title constants used by `formatLsof`. -/
def titlePID : Str := str "PID"

/-- Column title `"Name"`. -/
def titleName : Str := str "Name"

/-- Column title `"Directory"`. -/
def titleDirectory : Str := str "Directory"

/-- Column title `"Owner"`. -/
def titleOwner : Str := str "Owner"

/-- Column title `"Protocol"`. -/
def titleProtocol : Str := str "Protocol"

/-- Column title `"Address"`. -/
def titleAddress : Str := str "Address"

/-- Column title `"Port"`. -/
def titlePort : Str := str "Port"

/-- Column title `"Local Address"`. -/
def titleLocalAddress : Str := str "Local Address"

/-- Column title `"Local Port"`. -/
def titleLocalPort : Str := str "Local Port"

/-- Column title `"Remote Address"`. -/
def titleRemoteAddress : Str := str "Remote Address"

/-- Column title `"Remote Port"`. -/
def titleRemotePort : Str := str "Remote Port"

/-- Column title `"Status"`. -/
def titleStatus : Str := str "Status"

/-- The per-cell switch of `formatLsof` (`main.go:463-536`): the value of one
column for the row of connection `conn` (the `connIndex`-th of `proc`).
Process-level columns are populated only on the first row of the block; the
composite Address/Port columns prefer the remote value. -/
def columnValue (col : column) (proc : process) (connIndex : Nat) (conn : connection) : Str :=
  if col.title = titlePID then (if connIndex = 0 then itoa proc.id else [])
  else if col.title = titleName then (if connIndex = 0 then proc.name else [])
  else if col.title = titleDirectory then (if connIndex = 0 then proc.directory else [])
  else if col.title = titleOwner then (if connIndex = 0 then proc.username else [])
  else if col.title = titleProtocol then conn.protocol
  else if col.title = titleAddress then
    (if ¬ conn.remoteAddress = [] then conn.remoteAddress else conn.localAddress)
  else if col.title = titlePort then
    (if ¬ conn.remotePort = [] then conn.remotePort else conn.localPort)
  else if col.title = titleLocalAddress then conn.localAddress
  else if col.title = titleLocalPort then conn.localPort
  else if col.title = titleRemoteAddress then conn.remoteAddress
  else if col.title = titleRemotePort then conn.remotePort
  else if col.title = titleStatus then toTitleAscii conn.status
  else []

/-- One display row: the configured columns evaluated at one connection. -/
def formatRow (options : settings) (proc : process) (connIndex : Nat) (conn : connection) : Row :=
  options.columns.map (fun col => columnValue col proc connIndex conn)

/-- The block of rows of one process: one row per connection, in order. -/
def rowsFor (options : settings) (proc : process) : List Row :=
  proc.connections.enum.map (fun ic => formatRow options proc ic.1 ic.2)

/-- Loop of `formatLsof` over the processes, carrying the rows and row starts
accumulated so far: each process records the current row count as its block
start, then appends its rows. -/
def formatAux (options : settings) : List process → List Row → List Nat → List Row × List Nat
  | [], rows, starts => (rows, starts)
  | proc :: rest, rows, starts =>
    formatAux options rest (rows ++ rowsFor options proc) (starts ++ [rows.length])

/-- `formatLsof` (`main.go:450-548`): rows and row-block starts for a slice of
processes.  (The Go function also returns an always-`nil` error, omitted.) -/
def formatLsof (processes : List process) (options : settings) : List Row × List Nat :=
  formatAux options processes [] []

/-- The error value carried by an `errMsg` (`main.go:105`). -/
inductive errVal : Type where
  /-- The error returned by `getLsof` (its `Error()` string). -/
  | lsofErr : Str → errVal
  /-- An error returned by `parseLsof`. -/
  | goErr : GoErr → errVal
  deriving DecidableEq

/-- A `tea.Msg` produced by the collection pipeline (`main.go:100-106`). -/
inductive teaMsg : Type where
  /-- `processesMsg`: processes, rendered rows, and row-block starts. -/
  | processesMsg : List process → List Row → List Nat → teaMsg
  /-- `errMsg`: the pipeline failed. -/
  | errMsg : errVal → teaMsg
  deriving DecidableEq

/-- `checkProcesses` (`main.go:190-218`): the collection pipeline, given the
outcome of the `getLsof` invocation (`lsofRes`, with a Go error modelled by its
`Error()` string) and the per-pid working-directory oracle.  A Go panic
escaping `parseLsof` crashes the goroutine instead of producing a message and
is modelled as `Except.error ()`. -/
def checkProcesses (settingsInfo : settings) (lsofRes : Except Str Str)
    (cwdOut : Int → Except Str Str) : Except Unit teaMsg :=
  match lsofRes with
  | Except.error e =>
    if ¬ (e = str "1") then
      Except.ok (teaMsg.processesMsg [] [] [])
    else
      Except.ok (teaMsg.errMsg (errVal.lsofErr e))
  | Except.ok out =>
    match parseLsof out settingsInfo cwdOut with
    | Except.error GoErr.panic => Except.error ()
    | Except.error pe => Except.ok (teaMsg.errMsg (errVal.goErr pe))
    | Except.ok parsed =>
      let fr := formatLsof parsed settingsInfo
      Except.ok (teaMsg.processesMsg parsed fr.1 fr.2)

/-- The fields of the bubbletea `model` (`main.go:73-90`) consumed by the
terminate branch of `model.Update`; `cursor` stands for `m.table.Cursor()`.
Render-only fields (the table widget internals, help model, styles, keymap,
sticky error) are omitted. -/
structure teaModel : Type where
  rowStarts : List Nat
  processes : List process
  cursor : Nat
  settings : settings
  deriving DecidableEq

/-- The `for i < len(m.processes)` scan of the terminate branch
(`main.go:617-625`): return the id of `processes[i]` at the first `i ≥ cursor`,
or `none` when the loop exhausts.  `fuel` bounds the iteration count;
`processes.length + 1` iterations always suffice starting from `i = 0`. -/
def terminateScan (processes : List process) (cursor : Nat) : Nat → Nat → Option Int
  | 0, _ => none
  | Nat.succ fuel, i =>
    if i < processes.length then
      if cursor ≤ i then
        match processes.get? i with
        | some p => some p.id
        | none => none
      else
        terminateScan processes cursor fuel (i + 1)
    else
      none

/-- The `keys.Terminate` branch of `model.Update` (`main.go:610-629`): when any
processes are owned, scan for the first process index at or after the cursor
and issue a termination action for that process's id (`some pid`); otherwise do
nothing (`none`).  Translated verbatim: the scan compares the cursor against
process indices (never consulting `m.rowStarts`), and no field of `m.settings`
— in particular not `readOnly` — is consulted. -/
def updateTerminate (m : teaModel) : Option Int :=
  if m.processes.length > 0 then
    terminateScan m.processes m.cursor (m.processes.length + 1) 0
  else
    none

/-- Set the read-only flag of a model's settings. -/
def withReadOnly (m : teaModel) : teaModel :=
  { m with settings := { m.settings with readOnly := true } }

/-- The connection survives the port filter: its local or remote port is in the
allow-list. -/
def portOk (options : settings) (c : connection) : Prop :=
  options.portFilter.contains c.localPort = true ∨ options.portFilter.contains c.remotePort = true

/-- No address field line was ever applied to the connection: all four
address/port fields still hold their zero value. -/
def addrUntouched (c : connection) : Prop :=
  c.localAddress = [] ∧ c.localPort = [] ∧ c.remoteAddress = [] ∧ c.remotePort = []

/-- The row-block starts produced by `formatLsof` starting from row `base`:
each process contributes its block start, then one row per connection. -/
def blockStarts (base : Nat) : List process → List Nat
  | [] => []
  | p :: rest => base :: blockStarts (base + p.connections.length) rest

/-- A working-directory oracle whose per-pid lookups all produce empty output. -/
def cwdNone : Int → Except Str Str := fun _ => Except.ok []

/-- A baseline filter configuration: no filtering, PID and Port columns. -/
def cfg0 : settings :=
  { readOnly := false, showClosed := false, listenOnly := false, getCwd := false,
    columns := [{ title := titlePID, width := 5 }, { title := titlePort, width := 5 }],
    portFilter := [], nameFilter := [] }

/-- `cfg0` with the show-closed flag enabled. -/
def cfgShowClosed : settings := { cfg0 with showClosed := true }

/-- `cfg0` with the port allow-list `["80"]`. -/
def cfgPort80 : settings := { cfg0 with portFilter := [str "80"] }

/-- Raw lsof output: one process with one connection in state `CLOSED`. -/
def rawClosed : Str := str "p1\nca\nLu\nftcp\nPTCP\nn1.2.3.4:80\nTST=CLOSED"

/-- The connection `parseLsof` extracts from `rawClosed`. -/
def connClosed : connection :=
  { protocol := str "TCP", status := str "CLOSED",
    remotePort := [], remoteAddress := [], localPort := str "80", localAddress := str "1.2.3.4" }

/-- The process `parseLsof` extracts from `rawClosed`. -/
def procClosed : process :=
  { id := 1, name := str "a", directory := [], connections := [connClosed], username := str "u" }

/-- Raw lsof output: one process whose connection's address field has no
`:port` part (`n1.2.3.4`). -/
def rawNoColon : Str := str "p1\nca\nLu\nftcp\nn1.2.3.4"

/-- Raw lsof output: one process whose connection segment carries no address
(`n`) field line at all. -/
def rawNoAddr : Str := str "p1\nca\nLu\nftcp\nPTCP\nTST=LISTEN"

/-- The connection `parseLsof` extracts from `rawNoAddr`: all four address and
port fields are still empty. -/
def connNoAddr : connection :=
  { protocol := str "TCP", status := str "LISTEN",
    remotePort := [], remoteAddress := [], localPort := [], localAddress := [] }

/-- The process `parseLsof` extracts from `rawNoAddr`. -/
def procNoAddr : process :=
  { id := 1, name := str "a", directory := [], connections := [connNoAddr], username := str "u" }

/-- Raw lsof output: one process with one `LISTEN` connection on local port 80. -/
def rawListen80 : Str := str "p1\nca\nLu\nftcp\nPTCP\nn1.2.3.4:80\nTST=LISTEN"

/-- The connection `parseLsof` extracts from `rawListen80`. -/
def connListen80 : connection :=
  { protocol := str "TCP", status := str "LISTEN",
    remotePort := [], remoteAddress := [], localPort := str "80", localAddress := str "1.2.3.4" }

/-- The process `parseLsof` extracts from `rawListen80`. -/
def procListen80 : process :=
  { id := 1, name := str "a", directory := [], connections := [connListen80], username := str "u" }

/-- A listening connection on local port 80, used to populate owned snapshots. -/
def connA : connection :=
  { protocol := str "TCP", status := str "LISTEN",
    remotePort := [], remoteAddress := [], localPort := str "80", localAddress := str "*" }

/-- A process with two connections, so its row block spans rows 0 and 1. -/
def procA : process :=
  { id := 100, name := str "a", directory := [], connections := [connA, connA], username := str "u" }

/-- A process with one connection, whose row block starts at row 2. -/
def procB : process :=
  { id := 200, name := str "b", directory := [], connections := [connA], username := str "u" }

/-- A model owning `[procA, procB]` (row-block starts `[0, 2]`) with the
selection cursor on row 1 — the second row of `procA`'s block. -/
def mCursor1 : teaModel :=
  { rowStarts := [0, 2], processes := [procA, procB], cursor := 1, settings := cfg0 }

/-- A model in read-only mode owning `[procA, procB]`, cursor on row 0. -/
def mReadOnly : teaModel :=
  { rowStarts := [0, 2], processes := [procA, procB], cursor := 0,
    settings := { cfg0 with readOnly := true } }

/-- The local-only address update of the no-arrow branch (`main.go:373-377`):
set `localAddress` and `localPort`, leave every other field unchanged. -/
def withLocal (conn : connection) (la lp : Str) : connection :=
  { conn with localAddress := la, localPort := lp }

/-- Inversion of a successful `Except` bind. -/
theorem bind_ok_iff {ε α β : Type} {x : Except ε α} {f : α → Except ε β} {b : β} :
    x >>= f = Except.ok b ↔ ∃ a, x = Except.ok a ∧ f a = Except.ok b := by
  cases x <;> simp [Bind.bind, Except.bind]

/-- The port filter only ever clears the validity flag, never sets it. -/
theorem portCheck_eq_true {options : settings} {c : connection} {valid : Bool}
    (h : portCheck options c valid = true) : valid = true := by
  unfold portCheck at h
  split at h
  · split at h
    · exact Bool.noConfusion h
    · exact h
  · exact h

/-- A connection that passes a non-empty port filter has its local or remote
port in the allow-list. -/
theorem portCheck_true_mem {options : settings} {c : connection} {valid : Bool}
    (hne : options.portFilter ≠ []) (h : portCheck options c valid = true) :
    options.portFilter.contains c.localPort = true ∨
      options.portFilter.contains c.remotePort = true := by
  unfold portCheck at h
  have hlen : options.portFilter.length > 0 := List.length_pos.mpr hne
  rw [if_pos hlen] at h
  cases hor : (options.portFilter.contains c.localPort || options.portFilter.contains c.remotePort) with
  | false => rw [hor] at h; simp at h
  | true => simp only [Bool.or_eq_true] at hor; exact hor

/-- An `if p then false else b` can only be true via its else branch. -/
theorem ite_false_branch {p : Prop} [Decidable p] {b : Bool}
    (h : (if p then false else b) = true) : b = true := by
  split at h
  · exact Bool.noConfusion h
  · exact h

/-- `splitAux` never returns the empty list. -/
theorem splitAux_ne_nil (sep : Str) : ∀ (fuel : Nat) (s acc : Str), splitAux sep fuel s acc ≠ [] := by
  intro fuel
  induction fuel with
  | zero => intro s acc; cases s <;> simp [splitAux]
  | succ fuel ih =>
    intro s acc
    cases s with
    | nil => simp [splitAux]
    | cons c rest =>
      simp only [splitAux]
      split
      · simp
      · exact ih rest (acc ++ [c])

/-- Splitting a string in which the separator never occurs yields a single
token. -/
theorem splitAux_no_occ (sep : Str) :
    ∀ (fuel : Nat) (s acc : Str), containsSub sep s = false → splitAux sep fuel s acc = [acc ++ s] := by
  intro fuel
  induction fuel with
  | zero => intro s acc _; cases s <;> simp [splitAux]
  | succ fuel ih =>
    intro s acc h
    cases s with
    | nil => simp [splitAux]
    | cons c rest =>
      simp only [containsSub, Bool.or_eq_false_iff] at h
      simp only [splitAux]
      rw [if_neg (by simp [h.1])]
      rw [ih rest (acc ++ [c]) h.2]
      simp

/-- `strings.Split` on a separator that does not occur returns the whole
string as the single element. -/
theorem splitGo_no_occ {s sep : Str} (hsep : sep ≠ []) (h : containsSub sep s = false) :
    splitGo s sep = [s] := by
  unfold splitGo
  rw [if_neg (by simp [hsep])]
  rw [splitAux_no_occ sep s.length s [] h]
  simp

/-- Splitting a string in which the separator occurs yields at least two
tokens. -/
theorem splitAux_occ_len (sep : Str) (hsep : sep ≠ []) :
    ∀ (fuel : Nat) (s acc : Str), containsSub sep s = true → s.length ≤ fuel →
      2 ≤ (splitAux sep fuel s acc).length := by
  intro fuel
  induction fuel with
  | zero =>
    intro s acc h hf
    have hs : s = [] := List.eq_nil_of_length_eq_zero (Nat.le_zero.mp hf)
    subst hs
    simp only [containsSub] at h
    exact absurd h (by simp [hsep])
  | succ fuel ih =>
    intro s acc h hf
    cases s with
    | nil =>
      simp only [containsSub] at h
      exact absurd h (by simp [hsep])
    | cons c rest =>
      simp only [splitAux]
      split
      case isTrue hp =>
        have hne := splitAux_ne_nil sep fuel ((c :: rest).drop sep.length) []
        have h1 : 1 ≤ (splitAux sep fuel ((c :: rest).drop sep.length) []).length :=
          List.length_pos.mpr hne
        simp only [List.length_cons]
        omega
      case isFalse hp =>
        have h2 : containsSub sep rest = true := by
          simp only [containsSub, Bool.or_eq_true] at h
          rcases h with h | h
          · exact absurd h (by simpa using hp)
          · exact h
        have hf2 : rest.length ≤ fuel := by
          simp only [List.length_cons] at hf
          omega
        exact ih rest (acc ++ [c]) h2 hf2

/-- `strings.Split` on a separator that occurs returns at least two elements. -/
theorem splitGo_occ_len {s sep : Str} (hsep : sep ≠ []) (h : containsSub sep s = true) :
    2 ≤ (splitGo s sep).length := by
  unfold splitGo
  rw [if_neg (by simp [hsep])]
  exact splitAux_occ_len sep hsep s.length s [] h (Nat.le_refl _)

/-- Claim C1: the spec says a connection whose status is the closed-state
token is invalidated when "show closed" is disabled, and kept when it is
enabled.  The code (`main.go:405`) tests `status == "CLOSED" && options.showClosed`
— the flag is inverted, contradicting the comment above it ("If the port isn't
closed OR we have enabled closed ports") and the `--show-closed` flag help
("Show closed ports"): with `showClosed = false` the `CLOSED` connection
survives into the snapshot, and with `showClosed = true` it is dropped. -/
theorem c1_show_closed_inverted :
    cfg0.showClosed = false ∧
    connClosed.status = str "CLOSED" ∧
    parseLsof rawClosed cfg0 cwdNone = Except.ok [procClosed] ∧
    cfgShowClosed.showClosed = true ∧
    parseLsof rawClosed cfgShowClosed cwdNone = Except.ok [] :=
  ⟨rfl, rfl, rfl, rfl, rfl⟩

/-- Claim C2: the spec says the enumeration utility's documented "no results"
exit status (error string `"1"`) yields an empty Snapshot and every other
nonzero exit is reported as a CollectionError.  The code (`main.go:196-203`)
has the branches swapped — `if !(err.Error() == "1")` returns the empty
`processesMsg` — contradicting its own comment ("No processes, so return empty
process slice"): the "no results" exit produces an error message and any other
error produces an empty snapshot. -/
theorem c2_exit_code_branches_swapped :
    checkProcesses cfg0 (Except.error (str "1")) cwdNone
      = Except.ok (teaMsg.errMsg (errVal.lsofErr (str "1"))) ∧
    checkProcesses cfg0 (Except.error (str "2")) cwdNone
      = Except.ok (teaMsg.processesMsg [] [] []) :=
  ⟨rfl, rfl⟩

/-- Claim C3: the spec says a terminate request kills the process whose row
block contains the cursor row.  In the snapshot `[procA, procB]` the row-block
starts are `[0, 2]`, so cursor row 1 lies inside `procA`'s block (rows 0-1);
but the code (`main.go:617-625`) compares the cursor against *process indices*
(never consulting `m.rowStarts`, despite its comment "Use the start of each
process' set of rows to get the PID to kill") and terminates
`processes[1] = procB` instead. -/
theorem c3_cursor_used_as_process_index :
    (formatLsof [procA, procB] cfg0).2 = [0, 2] ∧
    mCursor1.cursor = 1 ∧
    updateTerminate mCursor1 = some procB.id ∧
    procA.id = 100 ∧ procB.id = 200 :=
  ⟨rfl, rfl, rfl, rfl, rfl⟩

/-- Claim C4: the spec says read-only mode disables termination entirely.  The
terminate branch of `model.Update` never consults `settings.readOnly`
(contradicting the `--read-only` flag help "prevents processes from being
terminated in the TUI"): its result is unchanged by setting the flag, and a
read-only model still issues a termination action. -/
theorem c4_read_only_ignored :
    (∀ m : teaModel, updateTerminate (withReadOnly m) = updateTerminate m) ∧
    mReadOnly.settings.readOnly = true ∧
    updateTerminate mReadOnly = some procA.id :=
  ⟨fun _ => rfl, rfl, rfl⟩

/-- Claim C5: the spec says a lookup output without the `fcwd`+`n` marker
yields the empty string and no error.  The guard in the code
(`main.go:255`) tests `len(cwdSplit) < 1`, which is never true
(`strings.Split` always returns at least one element), so `cwdSplit[1]` is
evaluated and panics on marker-free output such as `"abc"` — contradicting the
comment "No cwd, return empty and nil" on the dead branch. -/
theorem c5_missing_marker_panics :
    containsSub cwdMarker (str "abc") = false ∧
    getCwd (Except.ok (str "abc")) = Except.error GoErr.panic :=
  ⟨rfl, rfl⟩

/-- Claim C6: the spec says raw text with zero process blocks — in particular
the empty string — parses to an empty Snapshot without error.  On the empty
string the code reaches `processInfo[0] = processInfo[0][1:]` (`main.go:293`)
with `processInfo[0] = ""` and panics (slice bound 1 exceeds length 0) for
every filter configuration, instead of returning an empty result through its
error channel. -/
theorem c6_empty_input_panics :
    ∀ (options : settings) (cwdOut : Int → Except Str Str),
      parseLsof (str "") options cwdOut = Except.error GoErr.panic :=
  fun _ _ => rfl

/-- Claim C7 (counterexample): the claim asserts an arrow-free address field
parses without failure even when the optional `:port` part is absent; but on
the address field `n1.2.3.4` (no colon) the code evaluates
`splitLocalAddressAndPort[1]` (`main.go:377`) on a one-element slice and
panics, so the whole parse fails. -/
theorem c7_portless_address_panics :
    parseLsof rawNoColon cfg0 cwdNone = Except.error GoErr.panic := rfl

/-- Claim C7 (amended): for an address field value without the arrow token and
not the `*:*` sentinel, if it contains the address:port delimiter the parser
treats it as local-only — `localAddress` and `localPort` are set to the first
two colon-separated components, every other field (in particular both remote
fields) is left unchanged, and the step completes without failure (the
validity flag then goes through the port filter); when the `:port` part is
absent (no delimiter) the address handler panics instead of completing. -/
theorem c7_local_only_amended :
    (∀ (options : settings) (conn : connection) (valid : Bool) (v : Str),
      containsSub arrowTok v = false → containsSub colonTok v = true → ¬ v = starStar →
      connLine options conn valid ('n' :: v) =
        Except.ok (withLocal conn (splitGo v colonTok).headI ((splitGo v colonTok).getD 1 []),
                   portCheck options
                     (withLocal conn (splitGo v colonTok).headI ((splitGo v colonTok).getD 1 []))
                     valid)) ∧
    (∀ (options : settings) (conn : connection) (valid : Bool) (v : Str),
      containsSub arrowTok v = false → containsSub colonTok v = false → ¬ v = starStar →
      connLine options conn valid ('n' :: v) = Except.error GoErr.panic) := by
  constructor
  · intro options conn valid v hA hC hS
    have hsplit : splitGo v arrowTok = [v] := splitGo_no_occ (by decide) hA
    have hlen : 2 ≤ (splitGo v colonTok).length := splitGo_occ_len (by decide) hC
    cases hl : splitGo v colonTok with
    | nil => rw [hl] at hlen; simp at hlen
    | cons a t =>
      cases t with
      | nil => rw [hl] at hlen; simp at hlen
      | cons b t2 =>
        simp only [connLine, hsplit, hl]
        rw [if_pos trivial, if_neg hS, if_neg (by simp)]
        simp [goIdx, hl, Bind.bind, Except.bind, withLocal]
  · intro options conn valid v hA hC hS
    have hsplit : splitGo v arrowTok = [v] := splitGo_no_occ (by decide) hA
    have hcolon : splitGo v colonTok = [v] := splitGo_no_occ (by decide) hC
    simp only [connLine, hsplit, hcolon]
    rw [if_pos trivial, if_neg hS, if_neg (by simp)]
    simp [goIdx, hcolon, Bind.bind, Except.bind]

/-- Claim C7 (witness): the amended local-only behavior evaluated on the
concrete arrow-free address field `1.2.3.4:80`. -/
theorem c7_local_only_amended_witness :
    connLine cfg0 connZero true ('n' :: str "1.2.3.4:80") =
      Except.ok (withLocal connZero (splitGo (str "1.2.3.4:80") colonTok).headI
                   ((splitGo (str "1.2.3.4:80") colonTok).getD 1 []),
                 portCheck cfg0
                   (withLocal connZero (splitGo (str "1.2.3.4:80") colonTok).headI
                     ((splitGo (str "1.2.3.4:80") colonTok).getD 1 []))
                   true) :=
  c7_local_only_amended.1 cfg0 connZero true (str "1.2.3.4:80") (by decide) (by decide) (by decide)

/-- Inversion of one field-line step: a step that leaves the connection valid
started from a valid one, and (under a non-empty port filter) preserves
"passes the port filter, or no address field applied yet". -/
theorem connLine_ok_inv {options : settings} {conn : connection} {valid : Bool} {line : Str}
    {r : connection × Bool} (h : connLine options conn valid line = Except.ok r) (ht : r.2 = true) :
    valid = true ∧ (options.portFilter ≠ [] → (portOk options conn ∨ addrUntouched conn) →
      portOk options r.1 ∨ addrUntouched r.1) := by
  cases line with
  | nil =>
    simp only [connLine, Except.ok.injEq] at h
    subst h
    exact ⟨ht, fun _ hp => hp⟩
  | cons c restLine =>
    simp only [connLine] at h
    by_cases hP : c = 'P'
    · rw [if_pos hP] at h
      simp only [Except.ok.injEq] at h
      subst h
      exact ⟨ht, fun _ hp => hp⟩
    · rw [if_neg hP] at h
      by_cases hn : c = 'n'
      · rw [if_pos hn] at h
        by_cases hS : restLine = starStar
        · rw [if_pos hS] at h
          simp only [Except.ok.injEq] at h
          subst h
          exact absurd ht (by simp)
        · rw [if_neg hS] at h
          by_cases hL : (splitGo restLine arrowTok).length > 1
          · rw [if_pos hL] at h
            obtain ⟨sideL, h1, h⟩ := bind_ok_iff.mp h
            obtain ⟨sideR, h2, h⟩ := bind_ok_iff.mp h
            obtain ⟨la, h3, h⟩ := bind_ok_iff.mp h
            obtain ⟨lp, h4, h⟩ := bind_ok_iff.mp h
            obtain ⟨ra, h5, h⟩ := bind_ok_iff.mp h
            obtain ⟨rp, h6, h⟩ := bind_ok_iff.mp h
            simp only [Except.ok.injEq] at h
            subst h
            exact ⟨portCheck_eq_true ht, fun hne _ => Or.inl (portCheck_true_mem hne ht)⟩
          · rw [if_neg hL] at h
            obtain ⟨side, h1, h⟩ := bind_ok_iff.mp h
            obtain ⟨la, h2, h⟩ := bind_ok_iff.mp h
            obtain ⟨lp, h3, h⟩ := bind_ok_iff.mp h
            simp only [Except.ok.injEq] at h
            subst h
            exact ⟨portCheck_eq_true ht, fun hne _ => Or.inl (portCheck_true_mem hne ht)⟩
      · rw [if_neg hn] at h
        by_cases hT : c = 'T'
        · rw [if_pos hT] at h
          obtain ⟨head4, h1, h⟩ := bind_ok_iff.mp h
          by_cases hst : head4 = str "TST="
          · rw [if_pos hst] at h
            simp only [Except.ok.injEq] at h
            subst h
            have hv1 := ite_false_branch ht
            have hv0 := ite_false_branch hv1
            exact ⟨hv0, fun _ hp => hp⟩
          · rw [if_neg hst] at h
            simp only [Except.ok.injEq] at h
            subst h
            exact ⟨ht, fun _ hp => hp⟩
        · rw [if_neg hT] at h
          simp only [Except.ok.injEq] at h
          subst h
          exact ⟨ht, fun _ hp => hp⟩

/-- Inversion of the field-line fold: same invariant as `connLine_ok_inv`,
carried over a whole connection segment. -/
theorem parseConnSegAux_inv {options : settings} :
    ∀ (lines : List Str) (conn : connection) (valid : Bool) (r : connection × Bool),
      parseConnSegAux options lines conn valid = Except.ok r → r.2 = true →
      valid = true ∧ (options.portFilter ≠ [] → (portOk options conn ∨ addrUntouched conn) →
        portOk options r.1 ∨ addrUntouched r.1) := by
  intro lines
  induction lines with
  | nil =>
    intro conn valid r h ht
    simp only [parseConnSegAux, Except.ok.injEq] at h
    subst h
    exact ⟨ht, fun _ hp => hp⟩
  | cons line rest ih =>
    intro conn valid r h ht
    simp only [parseConnSegAux] at h
    obtain ⟨r1, h1, h2⟩ := bind_ok_iff.mp h
    obtain ⟨hv1, htrans1⟩ := ih r1.1 r1.2 r h2 ht
    obtain ⟨hv0, htrans0⟩ := connLine_ok_inv h1 hv1
    exact ⟨hv0, fun hne hp => htrans1 hne (htrans0 hne hp)⟩

/-- A connection segment that parses to a still-valid connection under a
non-empty port filter yields a connection that passes the filter or never saw
an address field (all address/port fields still empty). -/
theorem parseConnSeg_portOk {options : settings} {seg : Str} {r : connection × Bool}
    (hne : options.portFilter ≠ []) (h : parseConnSeg options seg = Except.ok r)
    (ht : r.2 = true) : portOk options r.1 ∨ addrUntouched r.1 := by
  have h' : parseConnSegAux options (splitGo seg nlStr) connZero true = Except.ok r := h
  exact (parseConnSegAux_inv (splitGo seg nlStr) connZero true r h' ht).2 hne
    (Or.inr ⟨rfl, rfl, rfl, rfl⟩)

/-- Every connection surviving `parseConnections` under a non-empty port
filter passes the filter or never saw an address field. -/
theorem parseConnections_portOk {options : settings} (hne : options.portFilter ≠ []) :
    ∀ (segs : List Str) (conns : List connection),
      parseConnections options segs = Except.ok conns →
      ∀ c ∈ conns, portOk options c ∨ addrUntouched c := by
  intro segs
  induction segs with
  | nil =>
    intro conns h c hc
    simp only [parseConnections, Except.ok.injEq] at h
    subst h
    simp at hc
  | cons seg rest ih =>
    intro conns h c hc
    simp only [parseConnections] at h
    obtain ⟨r, h1, h⟩ := bind_ok_iff.mp h
    obtain ⟨restC, h2, h3⟩ := bind_ok_iff.mp h
    simp only [Except.ok.injEq] at h3
    subst h3
    by_cases hr : r.2 = true
    · rw [if_pos hr] at hc
      rcases List.mem_cons.mp hc with hc1 | hc2
      · subst hc1
        exact parseConnSeg_portOk hne h1 hr
      · exact ih restC h2 c hc2
    · rw [if_neg hr] at hc
      exact ih restC h2 c hc

/-- Inversion of a successfully emitted process: its connection list is the
(non-empty) output of `parseConnections` on the block's connection segments. -/
theorem parseProcessBlock_some_inv {options : settings} {cwdOut : Int → Except Str Str}
    {idx : Nat} {ps : Str} {p : process}
    (h : parseProcessBlock options cwdOut idx ps = Except.ok (some p)) :
    ∃ segs, parseConnections options segs = Except.ok p.connections ∧
      1 ≤ p.connections.length := by
  simp only [parseProcessBlock] at h
  obtain ⟨head, h1, h⟩ := bind_ok_iff.mp h
  obtain ⟨processInfo, h2, h⟩ := bind_ok_iff.mp h
  obtain ⟨pidStr, h3, h⟩ := bind_ok_iff.mp h
  obtain ⟨pid, h4, h⟩ := bind_ok_iff.mp h
  obtain ⟨finalCwd, h5, h⟩ := bind_ok_iff.mp h
  obtain ⟨line1, h6, h⟩ := bind_ok_iff.mp h
  obtain ⟨cmd, h7, h⟩ := bind_ok_iff.mp h
  simp only [emitProcess] at h
  split at h
  · obtain ⟨line2, h8, h⟩ := bind_ok_iff.mp h
    obtain ⟨user, h9, h⟩ := bind_ok_iff.mp h
    obtain ⟨allConnections, h10, h⟩ := bind_ok_iff.mp h
    split at h
    case isTrue hlen =>
      simp only [Except.ok.injEq, Option.some.injEq] at h
      subst h
      exact ⟨(splitGo ps sepNF).drop 1, h10, hlen⟩
    case isFalse =>
      simp at h
  · simp at h

/-- Every process in a successful `parseLsofAux` run was emitted by some
successful `parseProcessBlock`. -/
theorem parseLsofAux_mem {options : settings} {cwdOut : Int → Except Str Str} :
    ∀ (blocks : List Str) (idx : Nat) (procs : List process),
      parseLsofAux options cwdOut idx blocks = Except.ok procs →
      ∀ p ∈ procs, ∃ idx2 ps, parseProcessBlock options cwdOut idx2 ps = Except.ok (some p) := by
  intro blocks
  induction blocks with
  | nil =>
    intro idx procs h p hp
    simp only [parseLsofAux, Except.ok.injEq] at h
    subst h
    simp at hp
  | cons b rest ih =>
    intro idx procs h p hp
    simp only [parseLsofAux] at h
    obtain ⟨po, h1, h⟩ := bind_ok_iff.mp h
    obtain ⟨restP, h2, h3⟩ := bind_ok_iff.mp h
    cases po with
    | some q =>
      simp only [Except.ok.injEq] at h3
      subst h3
      rcases List.mem_cons.mp hp with hp1 | hp2
      · subst hp1
        exact ⟨idx, b, h1⟩
      · exact ih (idx + 1) restP h2 p hp2
    | none =>
      simp only [Except.ok.injEq] at h3
      subst h3
      exact ih (idx + 1) restP h2 p hp

/-- Claim C9: every Process in a Snapshot produced by `parseLsof` has at least
one Connection — a process whose connections all fail filtering (or that has
none) is dropped entirely, for every raw input, filter configuration and
working-directory oracle. -/
theorem c9_connections_nonempty :
    ∀ (raw : Str) (options : settings) (cwdOut : Int → Except Str Str) (procs : List process),
      parseLsof raw options cwdOut = Except.ok procs →
      ∀ p ∈ procs, 1 ≤ p.connections.length := by
  intro raw options cwdOut procs h p hp
  obtain ⟨idx2, ps, hb⟩ := parseLsofAux_mem (splitGo raw sepNP) 0 procs h p hp
  obtain ⟨segs, _, hlen⟩ := parseProcessBlock_some_inv hb
  exact hlen

/-- Claim C9 (witness): evaluated on the concrete raw text `rawListen80`,
whose single parsed process indeed has one connection. -/
theorem c9_connections_nonempty_witness : 1 ≤ procListen80.connections.length :=
  c9_connections_nonempty rawListen80 cfg0 cwdNone [procListen80] rfl procListen80
    (List.mem_singleton.mpr rfl)

/-- Claim C8 (counterexample): with the non-empty port allow-list `["80"]`,
the raw text `rawNoAddr` — whose single connection segment carries no address
field line — still parses to a snapshot containing that connection, whose
local and remote ports (both empty) are not in the allow-list: the port filter
check sits inside the address-field (`n`) case and is bypassed when no such
line occurs. -/
theorem c8_no_address_field_bypasses_filter :
    cfgPort80.portFilter = [str "80"] ∧
    parseLsof rawNoAddr cfgPort80 cwdNone = Except.ok [procNoAddr] ∧
    cfgPort80.portFilter.contains connNoAddr.localPort = false ∧
    cfgPort80.portFilter.contains connNoAddr.remotePort = false :=
  ⟨rfl, rfl, rfl, rfl⟩

/-- Claim C8 (amended): with a non-empty port allow-list, every connection in
the resulting Snapshot either has its local or remote port in the allow-list,
or came from a segment with no address field at all (all four address/port
fields still empty, `addrUntouched`); and with an empty allow-list the port
filter rejects nothing (the validity flag passes through `portCheck`
unchanged). -/
theorem c8_port_filter_amended :
    (∀ (raw : Str) (options : settings) (cwdOut : Int → Except Str Str) (procs : List process),
      parseLsof raw options cwdOut = Except.ok procs → options.portFilter ≠ [] →
      ∀ p ∈ procs, ∀ c ∈ p.connections,
        options.portFilter.contains c.localPort = true ∨
        options.portFilter.contains c.remotePort = true ∨ addrUntouched c) ∧
    (∀ (options : settings) (c : connection) (valid : Bool),
      options.portFilter = [] → portCheck options c valid = valid) := by
  constructor
  · intro raw options cwdOut procs h hne p hp c hc
    obtain ⟨idx2, ps, hb⟩ := parseLsofAux_mem (splitGo raw sepNP) 0 procs h p hp
    obtain ⟨segs, hconns, _⟩ := parseProcessBlock_some_inv hb
    have hmem := parseConnections_portOk hne segs p.connections hconns c hc
    rcases hmem with hpOk | hu
    · rcases hpOk with h1 | h2
      · exact Or.inl h1
      · exact Or.inr (Or.inl h2)
    · exact Or.inr (Or.inr hu)
  · intro options c valid h0
    simp [portCheck, h0]

/-- Claim C8 (witness): the amended statement evaluated on `rawListen80` with
allow-list `["80"]`: the surviving connection's local port is in the list. -/
theorem c8_port_filter_amended_witness :
    cfgPort80.portFilter.contains connListen80.localPort = true ∨
    cfgPort80.portFilter.contains connListen80.remotePort = true ∨ addrUntouched connListen80 :=
  c8_port_filter_amended.1 rawListen80 cfgPort80 cwdNone [procListen80] rfl (by decide)
    procListen80 (List.mem_singleton.mpr rfl) connListen80 (List.mem_singleton.mpr rfl)

/-- A process's row block has one row per connection. -/
theorem rowsFor_length (options : settings) (proc : process) :
    (rowsFor options proc).length = proc.connections.length := by
  simp [rowsFor, List.enum_length]

/-- Closed form of the accumulating formatter loop: the returned row starts
are the accumulated ones followed by the block starts based at the current
row count. -/
theorem formatAux_snd (options : settings) :
    ∀ (procs : List process) (rows : List Row) (starts : List Nat),
      (formatAux options procs rows starts).2 = starts ++ blockStarts rows.length procs := by
  intro procs
  induction procs with
  | nil => intro rows starts; simp [formatAux, blockStarts]
  | cons p rest ih =>
    intro rows starts
    simp only [formatAux, blockStarts]
    rw [ih]
    simp [List.length_append, rowsFor_length, List.append_assoc]

/-- Every block start is at least the base row count. -/
theorem blockStarts_le : ∀ (procs : List process) (base x : Nat),
    x ∈ blockStarts base procs → base ≤ x := by
  intro procs
  induction procs with
  | nil => intro base x hx; simp [blockStarts] at hx
  | cons p rest ih =>
    intro base x hx
    simp only [blockStarts, List.mem_cons] at hx
    rcases hx with rfl | hx
    · exact Nat.le_refl x
    · exact Nat.le_trans (Nat.le_add_right base p.connections.length) (ih _ x hx)

/-- When every process contributes at least one row, block starts are strictly
increasing. -/
theorem blockStarts_pairwise : ∀ (procs : List process) (base : Nat),
    (∀ p ∈ procs, 1 ≤ p.connections.length) → (blockStarts base procs).Pairwise (· < ·) := by
  intro procs
  induction procs with
  | nil => intro base _; simp [blockStarts]
  | cons p rest ih =>
    intro base h
    simp only [blockStarts]
    refine List.Pairwise.cons ?_
      (ih (base + p.connections.length) (fun q hq => h q (List.mem_cons_of_mem p hq)))
    intro x hx
    have h1 := blockStarts_le rest (base + p.connections.length) x hx
    have h2 := h p (List.mem_cons_self p rest)
    omega

/-- There is one block start per process. -/
theorem blockStarts_length : ∀ (procs : List process) (base : Nat),
    (blockStarts base procs).length = procs.length := by
  intro procs
  induction procs with
  | nil => intro base; simp [blockStarts]
  | cons p rest ih => intro base; simp [blockStarts, ih]

/-- The `i`-th block start is the base plus the rows contributed by the first
`i` processes. -/
theorem blockStarts_get? : ∀ (procs : List process) (base i : Nat), i < procs.length →
    (blockStarts base procs).get? i =
      some (base + ((procs.take i).map (fun p => p.connections.length)).sum) := by
  intro procs
  induction procs with
  | nil => intro base i hi; simp at hi
  | cons p rest ih =>
    intro base i hi
    cases i with
    | zero => simp [blockStarts]
    | succ j =>
      have hj : j < rest.length := by
        simp only [List.length_cons] at hi
        omega
      simp only [blockStarts, List.get?_cons_succ, List.take_succ_cons, List.map_cons,
        List.sum_cons]
      rw [ih (base + p.connections.length) j hj]
      simp only [Option.some.injEq]
      omega

/-- Claim C10: for a snapshot whose processes each have at least one
connection, `formatLsof` returns row-block starts that are strictly
increasing, one per process, with the `i`-th start equal to the total number
of rows (one per connection) contributed by all processes before process `i`. -/
theorem c10_row_block_starts (procs : List process) (options : settings)
    (h : ∀ p ∈ procs, 1 ≤ p.connections.length) :
    ((formatLsof procs options).2).Pairwise (· < ·) ∧
    (formatLsof procs options).2.length = procs.length ∧
    ∀ i, i < procs.length →
      (formatLsof procs options).2.get? i =
        some (((procs.take i).map (fun p => p.connections.length)).sum) := by
  have hsnd : (formatLsof procs options).2 = blockStarts 0 procs := by
    have hfa := formatAux_snd options procs [] []
    simpa [formatLsof] using hfa
  refine ⟨?_, ?_, ?_⟩
  · rw [hsnd]
    exact blockStarts_pairwise procs 0 h
  · rw [hsnd]
    exact blockStarts_length procs 0
  · intro i hi
    rw [hsnd, blockStarts_get? procs 0 i hi]
    simp

/-- Claim C10 (witness): the strict increase evaluated on the concrete
snapshot `[procA, procB]` (row-block starts `[0, 2]`). -/
theorem c10_row_block_starts_witness :
    ((formatLsof [procA, procB] cfg0).2).Pairwise (· < ·) :=
  (c10_row_block_starts [procA, procB] cfg0 (by decide)).1

end Pvw
